import Mathlib

/-!
Shallow embedding of the incremental Kotlin dev-build pipeline of
`packages/uni-uts-v1/src/uvue/index.ts`.

Modelling conventions:

* Paths are plain strings.  `path.resolve(base, rel)` and `path.join(a, b)`
  are modelled as `base ++ "/" ++ rel` for the shapes this module uses
  (an absolute base joined with a relative segment); no `.` / `..`
  normalisation is performed, which none of the verified properties need.
* The filesystem is an association list from path to file content.
  `fs.existsSync`, `fs.unlinkSync`, `fs.copySync` and `fs.writeFileSync`
  become `existsF`, `removeFile`, `copyFile`, `writeFile`.  Filesystem
  faults (copying a missing file) are outside the model, as the source does
  not handle them (spec section 7 (d)); `copyFile` of a missing source
  leaves the filesystem unchanged.
* `JSON.parse` / `JSON.stringify` are modelled for the flat
  string-to-string objects the manifest uses, without escape sequences or
  whitespace tolerance; content the parser rejects models a thrown
  `SyntaxError`, which the manifest reader surfaces as `Except.error`.
* `String.prototype.replace(pat, rep)` with a string pattern replaces the
  first occurrence only; this is `replaceFirstStr`.
* The external compiler server (`getCompilerServer('uniapp-runextension')`
  and its `compile`) is a parameter: a flag for its presence and a function
  from the filesystem to a `DriverResult` together with the filesystem
  after the driver's own side effects.  `console.error` output is
  collected in the `logs` field of the final state.
-/

namespace UniAppX

/-- Boolean test that the first character list is a prefix of the second. -/
def isPre : List Char → List Char → Bool
  | [], _ => true
  | _ :: _, [] => false
  | a :: as, b :: bs => a == b && isPre as bs

/-- Boolean test that `pat` occurs as a contiguous sublist. -/
def containsSub (pat : List Char) : List Char → Bool
  | [] => isPre pat []
  | c :: rest => isPre pat (c :: rest) || containsSub pat rest

/-- Replace the first occurrence of `pat` by `rep`, as the JS
`String.replace` with a string pattern does; the list is returned
unchanged when `pat` does not occur. -/
def listReplaceFirst (pat rep : List Char) : List Char → List Char
  | [] => []
  | c :: rest =>
    if isPre pat (c :: rest) then rep ++ (c :: rest).drop pat.length
    else c :: listReplaceFirst pat rep rest

/-- JS `s.replace(pat, rep)` (first occurrence only). -/
def replaceFirstStr (s pat rep : String) : String :=
  String.mk (listReplaceFirst pat.data rep.data s.data)

/-- Model of `path.resolve(base, rel)` for an absolute base and a relative
segment: concatenation with a separator (no normalisation). -/
def resolvePath (base rel : String) : String := base ++ "/" ++ rel

/-- Model of `path.join(a, b)` for the shapes used here. -/
def joinPath (a b : String) : String := a ++ "/" ++ b

/-- Whether `p` lies inside directory `dir` (string-prefix test on
`dir ++ "/"`). -/
def underDir (dir p : String) : Bool := isPre (dir ++ "/").data p.data

/-- The filesystem: an association list from path to file content. -/
abbrev Fs := List (String × String)

/-- Content of the file at `p`, if it exists. -/
def lookupFile : Fs → String → Option String
  | [], _ => none
  | (q, c) :: rest, p => if q = p then some c else lookupFile rest p

/-- Model of `fs.existsSync`. -/
def existsF (fs : Fs) (p : String) : Bool := (lookupFile fs p).isSome

/-- Model of `fs.unlinkSync` (also used to overwrite). -/
def removeFile : Fs → String → Fs
  | [], _ => []
  | (q, c) :: rest, p => if q = p then removeFile rest p else (q, c) :: removeFile rest p

/-- Model of `fs.writeFileSync`. -/
def writeFile (fs : Fs) (p c : String) : Fs := (p, c) :: removeFile fs p

/-- Model of `fs.copySync`; copying a missing source is a filesystem fault
outside the model and leaves the filesystem unchanged. -/
def copyFile (fs : Fs) (src dst : String) : Fs :=
  match lookupFile fs src with
  | some c => writeFile fs dst c
  | none => fs

/-- Scan the body of a JSON string literal up to the closing quote. -/
def scanStringBody : List Char → List Char → Option (String × List Char)
  | _, [] => none
  | acc, c :: rest =>
    if c = '"' then some (String.mk acc.reverse, rest) else scanStringBody (c :: acc) rest

/-- Parse a JSON string literal. -/
def parseStr : List Char → Option (String × List Char)
  | '"' :: rest => scanStringBody [] rest
  | _ => none

/-- Parse the members of a flat JSON object, consuming the closing brace. -/
def parseEntries : Nat → List Char → Option (List (String × String))
  | 0, _ => none
  | fuel + 1, cs =>
    match parseStr cs with
    | none => none
    | some (k, rest1) =>
      match rest1 with
      | ':' :: rest2 =>
        match parseStr rest2 with
        | none => none
        | some (v, rest3) =>
          match rest3 with
          | ',' :: rest4 => (parseEntries fuel rest4).map (fun es => (k, v) :: es)
          | ['\x7d'] => some [(k, v)]
          | _ => none
      | _ => none

/-- Model of `JSON.parse` restricted to the flat string-to-string objects
the manifest uses; `none` models a thrown `SyntaxError`. -/
def parseManifestJson (s : String) : Option (List (String × String)) :=
  match s.data with
  | '\x7b' :: rest =>
    match rest with
    | ['\x7d'] => some []
    | _ => parseEntries rest.length rest
  | _ => none

/-- Serialize the members of a flat JSON object. -/
def stringifyEntries : List (String × String) → String
  | [] => ""
  | [(k, v)] => "\"" ++ k ++ "\":\"" ++ v ++ "\""
  | (k, v) :: rest => "\"" ++ k ++ "\":\"" ++ v ++ "\"" ++ "," ++ stringifyEntries rest

/-- Model of `JSON.stringify` on a flat string-to-string object. -/
def stringifyManifest (m : List (String × String)) : String :=
  "\x7b" ++ stringifyEntries m ++ "\x7d"

/-- The transpiler result threaded through the development cycle
(`RunKotlinDevResult`); `filename` is used via `result.filename!` in the
source, so it is total here. -/
structure RunKotlinDevResult where
  filename : String
  changed : List String
  chunks : Option (List String)
  type : Option String := none
  kotlinc : Bool := false
deriving DecidableEq

/-- The fields of `CompileAppOptions` that the development cycle reads;
the transpiler-only fields are omitted. -/
structure CompileAppOptions where
  inputDir : String
  outputDir : String
deriving DecidableEq

/-- The `data` payload of a successful compiler-driver response. -/
structure DriverData where
  dexList : List String
deriving DecidableEq

/-- The compiler-driver response `{code, msg?, data?}`. -/
structure DriverResult where
  code : Int
  msg : Option String
  data : Option DriverData
deriving DecidableEq

/-- Final state of a development cycle: the (mutated) result object, the
filesystem, and the `console.error` log. -/
structure DevState where
  result : RunKotlinDevResult
  fs : Fs
  logs : List String
deriving DecidableEq

/-- `kotlinDir`: the cache root, from the `UNI_APP_X_CACHE_DIR` override
(the empty string is falsy in JS) or `path.resolve(outputDir, '../.kotlin')`. -/
def kotlinDir (cacheDirEnv : Option String) (outputDir : String) : String :=
  match cacheDirEnv with
  | some s => if s = "" then resolvePath outputDir "../.kotlin" else s
  | none => resolvePath outputDir "../.kotlin"

/-- `kotlinSrcDir` from the source. -/
def kotlinSrcDir (kotlinRoot : String) : String := resolvePath kotlinRoot "src"

/-- `kotlinDexDir` from the source. -/
def kotlinDexDir (kotlinRoot : String) : String := resolvePath kotlinRoot "dex"

/-- `kotlinClassDir` from the source. -/
def kotlinClassDir (kotlinRoot : String) : String := resolvePath kotlinRoot "class"

/-- `resolveDexByKotlinFile` from the source: resolve the file against the
dex directory, remove the FIRST occurrence of `".kt"` (JS
`String.replace`), and join with `"classes.dex"`. -/
def resolveDexByKotlinFile (kotlinDexOutDir kotlinFile : String) : String :=
  joinPath (replaceFirstStr (resolvePath kotlinDexOutDir kotlinFile) ".kt" "") "classes.dex"

/-- First phase of `parseKotlinChangedFiles`: map over `result.changed`,
deleting each file's cached dex artifact when present and collecting the
resolved Kotlin source paths. -/
def processChanged (kotlinSrcOutDir kotlinDexOutDir : String) :
    List String → Fs → List String × Fs
  | [], fs => ([], fs)
  | file :: rest, fs =>
    let dexFile := resolveDexByKotlinFile kotlinDexOutDir file
    let fs1 := if existsF fs dexFile then removeFile fs dexFile else fs
    let pr := processChanged kotlinSrcOutDir kotlinDexOutDir rest fs1
    (resolvePath kotlinSrcOutDir file :: pr.1, pr.2)

/-- Second phase of `parseKotlinChangedFiles`: walk
`['index.kt', ...chunks]`; a chunk already in the list is skipped; a chunk
with a cached dex artifact has it promoted into the output directory
(only when absent there); a chunk without one is appended to the list. -/
def processChunks (kotlinSrcOutDir kotlinDexOutDir outputDir : String) :
    List String → List String → Fs → List String × Fs
  | [], acc, fs => (acc, fs)
  | chunk :: rest, acc, fs =>
    let chunkFile := resolvePath kotlinSrcOutDir chunk
    if chunkFile ∈ acc then
      processChunks kotlinSrcOutDir kotlinDexOutDir outputDir rest acc fs
    else
      let dexFile := resolveDexByKotlinFile kotlinDexOutDir chunk
      if existsF fs dexFile then
        let targetDexFile := resolveDexByKotlinFile outputDir chunk
        let fs1 := if existsF fs targetDexFile then fs else copyFile fs dexFile targetDexFile
        processChunks kotlinSrcOutDir kotlinDexOutDir outputDir rest acc fs1
      else
        processChunks kotlinSrcOutDir kotlinDexOutDir outputDir rest (acc ++ [chunkFile]) fs

/-- `parseKotlinChangedFiles` from the source: the change set and the
filesystem after the deletions and promotions. -/
def parseKotlinChangedFiles (result : RunKotlinDevResult)
    (kotlinSrcOutDir kotlinDexOutDir outputDir : String) (fs : Fs) :
    List String × Fs :=
  let pc := processChanged kotlinSrcOutDir kotlinDexOutDir result.changed fs
  processChunks kotlinSrcOutDir kotlinDexOutDir outputDir
    ("index.kt" :: result.chunks.getD []) pc.1 pc.2

/-- `syncDexList` from the source: copy every produced artifact from the
dex cache directory into the output directory. -/
def syncDexList : List String → String → String → Fs → Fs
  | [], _, _, fs => fs
  | dex :: rest, kotlinDexOutDir, outputDir, fs =>
    syncDexList rest kotlinDexOutDir outputDir
      (copyFile fs (resolvePath kotlinDexOutDir dex) (resolvePath outputDir dex))

/-- Path of the hidden manifest file inside the Kotlin source output
directory. -/
def manifestPath (kotlinSrcOutDir : String) : String :=
  resolvePath kotlinSrcOutDir ".manifest.json"

/-- `readKotlinManifestJson` from the source: an absent file gives
`.ok none`; a present file is parsed by `JSON.parse`, whose failure is a
thrown error (`.error`). -/
def readKotlinManifestJson (fs : Fs) (kotlinSrcOutDir : String) :
    Except String (Option (List (String × String))) :=
  match lookupFile fs (manifestPath kotlinSrcOutDir) with
  | none => Except.ok none
  | some content =>
    match parseManifestJson content with
    | some m => Except.ok (some m)
    | none => Except.error "SyntaxError: JSON.parse"

/-- `writeKotlinManifestJson` from the source. -/
def writeKotlinManifestJson (kotlinSrcOutDir : String)
    (m : List (String × String)) (fs : Fs) : Fs :=
  writeFile fs (manifestPath kotlinSrcOutDir) (stringifyManifest m)

/-- Model of `delete manifest[file]` folded over the changed list. -/
def removeKeys (m : List (String × String)) (keys : List String) :
    List (String × String) :=
  m.filter (fun kv => decide (kv.1 ∉ keys))

/-- Model of `if (msg) console.error(msg)` (the empty string is falsy). -/
def logOf : Option String → List String
  | none => []
  | some m => if m = "" then [] else [m]

/-- The `else` branch of the dex compilation in `runKotlinDev`: roll back
the manifest entries of `result.changed` (when any and when the manifest
is readable), clear the changed list, and log the driver message. -/
def runKotlinDevFail (kotlinSrcOutDir : String) (result : RunKotlinDevResult)
    (fs : Fs) (msg : Option String) : Except String DevState :=
  if result.changed.isEmpty then
    Except.ok { result := result, fs := fs, logs := logOf msg }
  else
    match readKotlinManifestJson fs kotlinSrcOutDir with
    | Except.error e => Except.error e
    | Except.ok none =>
      Except.ok { result := { result with changed := [] }, fs := fs, logs := logOf msg }
    | Except.ok (some m) =>
      Except.ok
        { result := { result with changed := [] }
          fs := writeKotlinManifestJson kotlinSrcOutDir (removeKeys m result.changed) fs
          logs := logOf msg }

/-- The Kotlin source output directory of a development cycle. -/
def srcOutOf (cacheDirEnv : Option String) (outputDir : String) : String :=
  kotlinSrcDir (kotlinDir cacheDirEnv outputDir)

/-- The dex cache directory of a development cycle. -/
def dexOutOf (cacheDirEnv : Option String) (outputDir : String) : String :=
  kotlinDexDir (kotlinDir cacheDirEnv outputDir)

/-- `parseKotlinChangedFiles` at the directories `runKotlinDev` uses. -/
def devParse (cacheDirEnv : Option String) (outputDir : String)
    (result : RunKotlinDevResult) (fs : Fs) : List String × Fs :=
  parseKotlinChangedFiles result (srcOutOf cacheDirEnv outputDir)
    (dexOutOf cacheDirEnv outputDir) outputDir fs

/-- `runKotlinDev` from the source, with the compiler server abstracted
into a presence flag and a driver function (the result and the filesystem
after the driver's side effects).  The argument assembly for the external
toolchain (classpaths, module name, stderr listener) has no observable
effect in the model and is not represented. -/
def runKotlinDev (opts : CompileAppOptions) (cacheDirEnv : Option String)
    (hasServer : Bool) (driver : Fs → DriverResult × Fs)
    (result : RunKotlinDevResult) (fs : Fs) : Except String DevState :=
  if !(devParse cacheDirEnv opts.outputDir result fs).1.isEmpty &&
      existsF (devParse cacheDirEnv opts.outputDir result fs).2
        (resolvePath (srcOutOf cacheDirEnv opts.outputDir) result.filename) then
    if hasServer then
      if (driver (devParse cacheDirEnv opts.outputDir result fs).2).1.code = 0 then
        match (driver (devParse cacheDirEnv opts.outputDir result fs).2).1.data with
        | some d =>
          Except.ok
            { result :=
                { result with
                  type := some "kotlin"
                  kotlinc := true
                  changed := d.dexList }
              fs := syncDexList d.dexList (dexOutOf cacheDirEnv opts.outputDir)
                      opts.outputDir
                      (driver (devParse cacheDirEnv opts.outputDir result fs).2).2
              logs := [] }
        | none =>
          runKotlinDevFail (srcOutOf cacheDirEnv opts.outputDir)
            { result with type := some "kotlin", kotlinc := true }
            (driver (devParse cacheDirEnv opts.outputDir result fs).2).2
            (driver (devParse cacheDirEnv opts.outputDir result fs).2).1.msg
      else
        runKotlinDevFail (srcOutOf cacheDirEnv opts.outputDir)
          { result with type := some "kotlin", kotlinc := true }
          (driver (devParse cacheDirEnv opts.outputDir result fs).2).2
          (driver (devParse cacheDirEnv opts.outputDir result fs).2).1.msg
    else Except.error "项目使用了uts插件，正在安装 uts Android 运行扩展..."
  else
    Except.ok
      { result := { result with type := some "kotlin" }
        fs := (devParse cacheDirEnv opts.outputDir result fs).2
        logs := [] }

/-- Result object of a completed cycle, when the cycle did not throw. -/
def okResult : Except String DevState → Option RunKotlinDevResult
  | Except.ok st => some st.result
  | Except.error _ => none

/-- Filesystem of a completed cycle, when the cycle did not throw. -/
def okFs : Except String DevState → Option Fs
  | Except.ok st => some st.fs
  | Except.error _ => none

/-- Specification-side derivation of claim C2's wording: strip a trailing
`".kt"` from the relative path, then root at the base directory and append
`"classes.dex"`. -/
def stripSuffixKt (s : String) : String :=
  if isPre ['t', 'k', '.'] s.data.reverse then String.mk (s.data.take (s.data.length - 3))
  else s

/-- Specification-side dex path derivation (`artifactPathFor` in the
spec's words), to be compared with `resolveDexByKotlinFile`. -/
def resolveDexByKotlinFileSpec (kotlinDexOutDir kotlinFile : String) : String :=
  joinPath (resolvePath kotlinDexOutDir (stripSuffixKt kotlinFile)) "classes.dex"

/-! Basic lemmas about the filesystem model. -/

lemma lookupFile_removeFile (fs : Fs) (q p : String) :
    lookupFile (removeFile fs q) p = if q = p then none else lookupFile fs p := by
  induction fs with
  | nil => simp [removeFile, lookupFile]
  | cons e rest ih =>
    obtain ⟨a, c⟩ := e
    by_cases haq : a = q <;> by_cases hqp : q = p <;>
      simp_all [removeFile, lookupFile]

lemma lookupFile_writeFile_self (fs : Fs) (p c : String) :
    lookupFile (writeFile fs p c) p = some c := by
  simp [writeFile, lookupFile]

lemma lookupFile_writeFile_ne (fs : Fs) (p c q : String) (h : p ≠ q) :
    lookupFile (writeFile fs p c) q = lookupFile fs q := by
  simp [writeFile, lookupFile, h, lookupFile_removeFile]

lemma existsF_eq_true_iff (fs : Fs) (p : String) :
    existsF fs p = true ↔ ∃ c, lookupFile fs p = some c := by
  simp [existsF, Option.isSome_iff_exists]

lemma existsF_of_lookup (fs : Fs) (p c : String) (h : lookupFile fs p = some c) :
    existsF fs p = true := by
  simp [existsF, h]

lemma existsF_removeFile_false (fs : Fs) (q p : String) (h : existsF fs p = false) :
    existsF (removeFile fs q) p = false := by
  by_cases hqp : q = p <;> simp_all [existsF, lookupFile_removeFile, hqp]

lemma existsF_removeFile_self (fs : Fs) (q : String) :
    existsF (removeFile fs q) q = false := by
  simp [existsF, lookupFile_removeFile]

lemma existsF_writeFile_mono (fs : Fs) (p c q : String) (h : existsF fs q = true) :
    existsF (writeFile fs p c) q = true := by
  by_cases hpq : p = q
  · subst hpq; simp [existsF, lookupFile_writeFile_self]
  · rw [existsF, lookupFile_writeFile_ne fs p c q hpq]; exact h

lemma existsF_copyFile_mono (fs : Fs) (src dst q : String) (h : existsF fs q = true) :
    existsF (copyFile fs src dst) q = true := by
  unfold copyFile
  cases hl : lookupFile fs src with
  | none => exact h
  | some c => exact existsF_writeFile_mono fs dst c q h

lemma lookupFile_copyFile_ne (fs : Fs) (src dst q : String) (h : dst ≠ q) :
    lookupFile (copyFile fs src dst) q = lookupFile fs q := by
  unfold copyFile
  cases hl : lookupFile fs src with
  | none => rfl
  | some c => exact lookupFile_writeFile_ne fs dst c q h

lemma existsF_copyFile_dst (fs : Fs) (src dst : String) (h : existsF fs src = true) :
    existsF (copyFile fs src dst) dst = true := by
  obtain ⟨c, hc⟩ := (existsF_eq_true_iff fs src).mp h
  unfold copyFile
  rw [hc]
  simp [existsF, lookupFile_writeFile_self]

/-! Basic lemmas about strings as character lists. -/

lemma string_data_append (a b : String) : (a ++ b).data = a.data ++ b.data := by
  cases a; cases b; rfl

lemma string_data_inj {a b : String} (h : a.data = b.data) : a = b := by
  cases a; cases b; exact congrArg String.mk h

lemma listIsEmpty_eq_nil {α : Type} {l : List α} (h : l.isEmpty = true) : l = [] := by
  cases l <;> simp_all [List.isEmpty]

/-! Lemmas about the changed-list phase of the resolver. -/

lemma processChanged_fst (srcOut dexOut : String) (l : List String) (fs : Fs) :
    (processChanged srcOut dexOut l fs).1 = l.map (resolvePath srcOut) := by
  induction l generalizing fs with
  | nil => rfl
  | cons f rest ih => simp [processChanged, ih]

lemma processChanged_exists_false (srcOut dexOut : String) (l : List String) :
    ∀ (fs : Fs) (p : String), existsF fs p = false →
      existsF (processChanged srcOut dexOut l fs).2 p = false := by
  induction l with
  | nil => intro fs p h; exact h
  | cons g rest ih =>
    intro fs p h
    simp only [processChanged]
    apply ih
    by_cases hex : existsF fs (resolveDexByKotlinFile dexOut g) = true
    · simp only [hex, if_true]
      exact existsF_removeFile_false _ _ _ h
    · simp only [Bool.not_eq_true] at hex
      simp only [hex, Bool.false_eq_true, if_false]
      exact h

lemma processChanged_dex_removed (srcOut dexOut : String) (l : List String) :
    ∀ (fs : Fs) (f : String), f ∈ l →
      existsF (processChanged srcOut dexOut l fs).2 (resolveDexByKotlinFile dexOut f) = false := by
  induction l with
  | nil => intro fs f hf; cases hf
  | cons g rest ih =>
    intro fs f hf
    rcases List.mem_cons.mp hf with h | h
    · subst h
      simp only [processChanged]
      apply processChanged_exists_false
      by_cases hex : existsF fs (resolveDexByKotlinFile dexOut f) = true
      · simp only [hex, if_true]
        exact existsF_removeFile_self _ _
      · simp only [Bool.not_eq_true] at hex
        simp only [hex, Bool.false_eq_true, if_false]
    · simp only [processChanged]
      exact ih _ _ h

lemma processChanged_preserve (srcOut dexOut : String) (l : List String) :
    ∀ (fs : Fs) (p c : String),
      (∀ f ∈ l, resolveDexByKotlinFile dexOut f ≠ p) →
      lookupFile fs p = some c →
      lookupFile (processChanged srcOut dexOut l fs).2 p = some c := by
  induction l with
  | nil => intro fs p c _ hc; exact hc
  | cons g rest ih =>
    intro fs p c hne hc
    simp only [processChanged]
    apply ih _ _ _ (fun f hf => hne f (List.mem_cons_of_mem _ hf))
    by_cases hex : existsF fs (resolveDexByKotlinFile dexOut g) = true
    · simp only [hex, if_true]
      rw [lookupFile_removeFile]
      simp [hne g (List.mem_cons_self _ _), hc]
    · simp only [Bool.not_eq_true] at hex
      simp only [hex, Bool.false_eq_true, if_false]
      exact hc

/-! Lemmas about the chunk phase of the resolver. -/

lemma processChunks_acc_mem (srcOut dexOut outDir : String) (l : List String) :
    ∀ (acc : List String) (fs : Fs) (x : String), x ∈ acc →
      x ∈ (processChunks srcOut dexOut outDir l acc fs).1 := by
  induction l with
  | nil => intro acc fs x hx; exact hx
  | cons chunk rest ih =>
    intro acc fs x hx
    simp only [processChunks]
    by_cases hmem : resolvePath srcOut chunk ∈ acc
    · simp only [hmem, if_true]
      exact ih _ _ _ hx
    · simp only [hmem, if_false]
      by_cases hex : existsF fs (resolveDexByKotlinFile dexOut chunk) = true
      · simp only [hex, if_true]
        exact ih _ _ _ hx
      · simp only [Bool.not_eq_true] at hex
        simp only [hex, Bool.false_eq_true, if_false]
        exact ih _ _ _ (List.mem_append_left _ hx)

lemma processChunks_exists_mono (srcOut dexOut outDir : String) (l : List String) :
    ∀ (acc : List String) (fs : Fs) (p : String), existsF fs p = true →
      existsF (processChunks srcOut dexOut outDir l acc fs).2 p = true := by
  induction l with
  | nil => intro acc fs p h; exact h
  | cons chunk rest ih =>
    intro acc fs p h
    simp only [processChunks]
    by_cases hmem : resolvePath srcOut chunk ∈ acc
    · simp only [hmem, if_true]
      exact ih _ _ _ h
    · simp only [hmem, if_false]
      by_cases hex : existsF fs (resolveDexByKotlinFile dexOut chunk) = true
      · simp only [hex, if_true]
        apply ih
        by_cases htg : existsF fs (resolveDexByKotlinFile outDir chunk) = true
        · simp only [htg, if_true]; exact h
        · simp only [Bool.not_eq_true] at htg
          simp only [htg, Bool.false_eq_true, if_false]
          exact existsF_copyFile_mono _ _ _ _ h
      · simp only [Bool.not_eq_true] at hex
        simp only [hex, Bool.false_eq_true, if_false]
        exact ih _ _ _ h

lemma processChunks_preserve (srcOut dexOut outDir : String) (l : List String) :
    ∀ (acc : List String) (fs : Fs) (p c : String), lookupFile fs p = some c →
      lookupFile (processChunks srcOut dexOut outDir l acc fs).2 p = some c := by
  induction l with
  | nil => intro acc fs p c hc; exact hc
  | cons chunk rest ih =>
    intro acc fs p c hc
    simp only [processChunks]
    by_cases hmem : resolvePath srcOut chunk ∈ acc
    · simp only [hmem, if_true]
      exact ih _ _ _ _ hc
    · simp only [hmem, if_false]
      by_cases hex : existsF fs (resolveDexByKotlinFile dexOut chunk) = true
      · simp only [hex, if_true]
        apply ih
        by_cases htg : existsF fs (resolveDexByKotlinFile outDir chunk) = true
        · simp only [htg, if_true]; exact hc
        · simp only [Bool.not_eq_true] at htg
          simp only [htg, Bool.false_eq_true, if_false]
          have hne : resolveDexByKotlinFile outDir chunk ≠ p := by
            intro heq
            rw [heq] at htg
            rw [existsF_of_lookup fs p c hc] at htg
            cases htg
          rw [lookupFile_copyFile_ne _ _ _ _ hne]
          exact hc
      · simp only [Bool.not_eq_true] at hex
        simp only [hex, Bool.false_eq_true, if_false]
        exact ih _ _ _ _ hc

lemma processChunks_chunk_covered (srcOut dexOut outDir : String) (l : List String) :
    ∀ (acc : List String) (fs : Fs) (c : String), c ∈ l →
      existsF (processChunks srcOut dexOut outDir l acc fs).2
        (resolveDexByKotlinFile dexOut c) = false →
      resolvePath srcOut c ∈ (processChunks srcOut dexOut outDir l acc fs).1 := by
  induction l with
  | nil => intro acc fs c hc; cases hc
  | cons chunk rest ih =>
    intro acc fs c hc hdex
    rcases List.mem_cons.mp hc with h | h
    · subst h
      simp only [processChunks] at hdex ⊢
      by_cases hmem : resolvePath srcOut c ∈ acc
      · simp only [hmem, if_true] at hdex ⊢
        exact processChunks_acc_mem _ _ _ _ _ _ _ hmem
      · simp only [hmem, if_false] at hdex ⊢
        by_cases hex : existsF fs (resolveDexByKotlinFile dexOut c) = true
        · exfalso
          simp only [hex, if_true] at hdex
          have hmono : existsF
              (if existsF fs (resolveDexByKotlinFile outDir c) = true then fs
               else copyFile fs (resolveDexByKotlinFile dexOut c)
                      (resolveDexByKotlinFile outDir c))
              (resolveDexByKotlinFile dexOut c) = true := by
            by_cases htg : existsF fs (resolveDexByKotlinFile outDir c) = true
            · simp only [htg, if_true]; exact hex
            · simp only [Bool.not_eq_true] at htg
              simp only [htg, Bool.false_eq_true, if_false]
              exact existsF_copyFile_mono _ _ _ _ hex
          have := processChunks_exists_mono srcOut dexOut outDir rest acc _ _ hmono
          rw [this] at hdex
          cases hdex
        · simp only [Bool.not_eq_true] at hex
          simp only [hex, Bool.false_eq_true, if_false] at hdex ⊢
          exact processChunks_acc_mem _ _ _ _ _ _ _ (List.mem_append_right _ (by simp))
    · simp only [processChunks] at hdex ⊢
      by_cases hmem : resolvePath srcOut chunk ∈ acc
      · simp only [hmem, if_true] at hdex ⊢
        exact ih _ _ _ h hdex
      · simp only [hmem, if_false] at hdex ⊢
        by_cases hex : existsF fs (resolveDexByKotlinFile dexOut chunk) = true
        · simp only [hex, if_true] at hdex ⊢
          exact ih _ _ _ h hdex
        · simp only [Bool.not_eq_true] at hex
          simp only [hex, Bool.false_eq_true, if_false] at hdex ⊢
          exact ih _ _ _ h hdex

lemma processChunks_nodup (srcOut dexOut outDir : String) (l : List String) :
    ∀ (acc : List String) (fs : Fs), acc.Nodup →
      (processChunks srcOut dexOut outDir l acc fs).1.Nodup := by
  induction l with
  | nil => intro acc fs h; exact h
  | cons chunk rest ih =>
    intro acc fs h
    simp only [processChunks]
    by_cases hmem : resolvePath srcOut chunk ∈ acc
    · simp only [hmem, if_true]
      exact ih _ _ h
    · simp only [hmem, if_false]
      by_cases hex : existsF fs (resolveDexByKotlinFile dexOut chunk) = true
      · simp only [hex, if_true]
        exact ih _ _ h
      · simp only [Bool.not_eq_true] at hex
        simp only [hex, Bool.false_eq_true, if_false]
        apply ih
        rw [List.nodup_append]
        refine ⟨h, List.nodup_singleton _, ?_⟩
        intro a ha hb
        rw [List.mem_singleton] at hb
        subst hb
        exact hmem ha

/-! Lemmas about the artifact sync and the manifest operations. -/

lemma syncDexList_exists_mono (l : List String) (dexOut outDir : String) :
    ∀ (fs : Fs) (p : String), existsF fs p = true →
      existsF (syncDexList l dexOut outDir fs) p = true := by
  induction l with
  | nil => intro fs p h; exact h
  | cons x rest ih =>
    intro fs p h
    simp only [syncDexList]
    exact ih _ _ (existsF_copyFile_mono _ _ _ _ h)

lemma syncDexList_covers (l : List String) (dexOut outDir : String) :
    ∀ (fs : Fs), (∀ y ∈ l, existsF fs (resolvePath dexOut y) = true) →
      ∀ x ∈ l,
        existsF (syncDexList l dexOut outDir fs) (resolvePath dexOut x) = true ∧
        existsF (syncDexList l dexOut outDir fs) (resolvePath outDir x) = true := by
  induction l with
  | nil => intro fs _ x hx; cases hx
  | cons y rest ih =>
    intro fs hall x hx
    have hy : existsF fs (resolvePath dexOut y) = true := hall y (List.mem_cons_self _ _)
    have hall2 : ∀ z ∈ rest,
        existsF (copyFile fs (resolvePath dexOut y) (resolvePath outDir y))
          (resolvePath dexOut z) = true :=
      fun z hz => existsF_copyFile_mono _ _ _ _ (hall z (List.mem_cons_of_mem _ hz))
    rcases List.mem_cons.mp hx with h | h
    · subst h
      simp only [syncDexList]
      constructor
      · exact syncDexList_exists_mono rest dexOut outDir _ _ (existsF_copyFile_mono _ _ _ _ hy)
      · exact syncDexList_exists_mono rest dexOut outDir _ _ (existsF_copyFile_dst _ _ _ hy)
    · simp only [syncDexList]
      exact ih _ hall2 x h

lemma removeKeys_lookup_mem (m : List (String × String)) (keys : List String)
    (f : String) (hf : f ∈ keys) :
    lookupFile (removeKeys m keys) f = none := by
  induction m with
  | nil => rfl
  | cons kv rest ih =>
    obtain ⟨k, v⟩ := kv
    simp only [removeKeys, List.filter_cons] at ih ⊢
    by_cases hk : k ∈ keys
    · rw [if_neg (by simp [hk])]
      exact ih
    · have hkf : k ≠ f := fun heq => hk (heq ▸ hf)
      rw [if_pos (by simp [hk])]
      simp only [lookupFile]
      rw [if_neg hkf]
      exact ih

lemma removeKeys_lookup_not_mem (m : List (String × String)) (keys : List String)
    (k : String) (hk : k ∉ keys) :
    lookupFile (removeKeys m keys) k = lookupFile m k := by
  induction m with
  | nil => rfl
  | cons kv rest ih =>
    obtain ⟨a, v⟩ := kv
    simp only [removeKeys, List.filter_cons] at ih ⊢
    by_cases ha : a ∈ keys
    · have hak : a ≠ k := fun heq => hk (heq ▸ ha)
      rw [if_neg (by simp [ha])]
      rw [ih]
      simp only [lookupFile]
      rw [if_neg hak]
    · rw [if_pos (by simp [ha])]
      by_cases hak : a = k
      · subst hak
        simp [lookupFile]
      · simp only [lookupFile]
        rw [if_neg hak, if_neg hak]
        exact ih

/-! Lemmas about first-occurrence replacement versus suffix stripping. -/

lemma string_mk_data (s : String) : String.mk s.data = s := by cases s; rfl

lemma isPre_append_self (pat l : List Char) : isPre pat (pat ++ l) = true := by
  induction pat with
  | nil => rfl
  | cons c rest ih => simp [isPre, ih]

lemma listReplaceFirst_strip (s : List Char)
    (h : containsSub ['.', 'k', 't'] s = false) :
    listReplaceFirst ['.', 'k', 't'] [] (s ++ ['.', 'k', 't']) = s := by
  induction s with
  | nil => decide
  | cons c s ih =>
    have hsplit : isPre ['.', 'k', 't'] (c :: s) = false ∧
        containsSub ['.', 'k', 't'] s = false := by
      simpa [containsSub, Bool.or_eq_false_iff] using h
    have hmain : isPre ['.', 'k', 't'] (c :: (s ++ ['.', 'k', 't'])) = false := by
      match s with
      | [] =>
        have h2 : isPre ['k', 't'] ['.', 'k', 't'] = false := by decide
        simp [isPre, h2]
      | [a] =>
        have h2 : isPre ['t'] ['.', 'k', 't'] = false := by decide
        simp [isPre, h2]
      | a :: b :: s3 =>
        have h1 := hsplit.1
        simp only [isPre, List.cons_append] at h1 ⊢
        exact h1
    have hcons : (c :: s) ++ ['.', 'k', 't'] = c :: (s ++ ['.', 'k', 't']) := rfl
    rw [hcons]
    simp only [listReplaceFirst, hmain, Bool.false_eq_true, if_false]
    rw [ih hsplit.2]

lemma replaceFirstStr_strip (s : String)
    (h : containsSub ['.', 'k', 't'] s.data = false) :
    replaceFirstStr (s ++ ".kt") ".kt" "" = s := by
  unfold replaceFirstStr
  have hdata : (s ++ ".kt").data = s.data ++ ['.', 'k', 't'] := by
    rw [string_data_append]
  rw [hdata]
  have hpat : (".kt" : String).data = ['.', 'k', 't'] := rfl
  have hrep : ("" : String).data = ([] : List Char) := rfl
  rw [hpat, hrep, listReplaceFirst_strip s.data h, string_mk_data]

lemma stripSuffixKt_append (r : String) : stripSuffixKt (r ++ ".kt") = r := by
  unfold stripSuffixKt
  have hdata : (r ++ ".kt").data = r.data ++ ['.', 'k', 't'] := by
    rw [string_data_append]
  rw [hdata, List.reverse_append]
  have hpre : isPre ['t', 'k', '.'] (['.', 'k', 't'].reverse ++ r.data.reverse) = true :=
    isPre_append_self _ _
  rw [hpre]
  simp only [if_true]
  have hlen : (r.data ++ ['.', 'k', 't']).length - 3 = r.data.length := by
    simp [List.length_append]
  rw [hlen, List.take_left, string_mk_data]

/-! A characterization of the failure branch of the development cycle. -/

lemma runKotlinDevFail_ok (srcOut : String) (r : RunKotlinDevResult) (fs : Fs)
    (msg : Option String) (st : DevState)
    (h : runKotlinDevFail srcOut r fs msg = Except.ok st) :
    st.result.changed = [] ∧ st.logs = logOf msg ∧ st.result.kotlinc = r.kotlinc ∧
      st.result.type = r.type ∧ st.result.filename = r.filename ∧
      (st.fs = fs ∨ ∃ m, st.fs = writeKotlinManifestJson srcOut (removeKeys m r.changed) fs) := by
  unfold runKotlinDevFail at h
  by_cases hemp : r.changed.isEmpty = true
  · rw [if_pos hemp] at h
    have hst := Except.ok.inj h
    subst hst
    refine ⟨listIsEmpty_eq_nil hemp, rfl, rfl, rfl, rfl, Or.inl rfl⟩
  · rw [if_neg hemp] at h
    cases hread : readKotlinManifestJson fs srcOut with
    | error e => rw [hread] at h; cases h
    | ok mo =>
      cases mo with
      | none =>
        rw [hread] at h
        have hst := Except.ok.inj h
        subst hst
        exact ⟨rfl, rfl, rfl, rfl, rfl, Or.inl rfl⟩
      | some m =>
        rw [hread] at h
        have hst := Except.ok.inj h
        subst hst
        exact ⟨rfl, rfl, rfl, rfl, rfl, Or.inr ⟨m, rfl⟩⟩

lemma runKotlinDev_skip (opts : CompileAppOptions) (cacheDirEnv : Option String)
    (hasServer : Bool) (driver : Fs → DriverResult × Fs)
    (result : RunKotlinDevResult) (fs : Fs)
    (hcond : (!(devParse cacheDirEnv opts.outputDir result fs).1.isEmpty &&
        existsF (devParse cacheDirEnv opts.outputDir result fs).2
          (resolvePath (srcOutOf cacheDirEnv opts.outputDir) result.filename)) = false) :
    runKotlinDev opts cacheDirEnv hasServer driver result fs =
      Except.ok
        { result := { result with type := some "kotlin" }
          fs := (devParse cacheDirEnv opts.outputDir result fs).2
          logs := [] } := by
  unfold runKotlinDev
  rw [hcond]
  simp

lemma runKotlinDev_compile_fail (opts : CompileAppOptions) (cacheDirEnv : Option String)
    (driver : Fs → DriverResult × Fs) (result : RunKotlinDevResult) (fs : Fs)
    (hcond : (!(devParse cacheDirEnv opts.outputDir result fs).1.isEmpty &&
        existsF (devParse cacheDirEnv opts.outputDir result fs).2
          (resolvePath (srcOutOf cacheDirEnv opts.outputDir) result.filename)) = true)
    (hfail : (driver (devParse cacheDirEnv opts.outputDir result fs).2).1.code ≠ 0 ∨
        (driver (devParse cacheDirEnv opts.outputDir result fs).2).1.data = none) :
    runKotlinDev opts cacheDirEnv true driver result fs =
      runKotlinDevFail (srcOutOf cacheDirEnv opts.outputDir)
        { result with type := some "kotlin", kotlinc := true }
        (driver (devParse cacheDirEnv opts.outputDir result fs).2).2
        (driver (devParse cacheDirEnv opts.outputDir result fs).2).1.msg := by
  unfold runKotlinDev
  rw [hcond]
  simp only [if_true]
  by_cases hcode : (driver (devParse cacheDirEnv opts.outputDir result fs).2).1.code = 0
  · rw [if_pos hcode]
    cases hdata : (driver (devParse cacheDirEnv opts.outputDir result fs).2).1.data with
    | none => rfl
    | some d =>
      exfalso
      rcases hfail with hf | hf
      · exact hf hcode
      · rw [hdata] at hf; cases hf
  · rw [if_neg hcode]

lemma runKotlinDev_compile_success (opts : CompileAppOptions) (cacheDirEnv : Option String)
    (driver : Fs → DriverResult × Fs) (result : RunKotlinDevResult) (fs : Fs)
    (d : DriverData)
    (hcond : (!(devParse cacheDirEnv opts.outputDir result fs).1.isEmpty &&
        existsF (devParse cacheDirEnv opts.outputDir result fs).2
          (resolvePath (srcOutOf cacheDirEnv opts.outputDir) result.filename)) = true)
    (hcode : (driver (devParse cacheDirEnv opts.outputDir result fs).2).1.code = 0)
    (hdata : (driver (devParse cacheDirEnv opts.outputDir result fs).2).1.data = some d) :
    runKotlinDev opts cacheDirEnv true driver result fs =
      Except.ok
        { result :=
            { result with
              type := some "kotlin"
              kotlinc := true
              changed := d.dexList }
          fs := syncDexList d.dexList (dexOutOf cacheDirEnv opts.outputDir) opts.outputDir
                  (driver (devParse cacheDirEnv opts.outputDir result fs).2).2
          logs := [] } := by
  unfold runKotlinDev
  rw [hcond]
  simp only [if_true]
  rw [if_pos hcode, hdata]

lemma string_append_assoc (a b c : String) : a ++ b ++ c = a ++ (b ++ c) := by
  apply string_data_inj
  rw [string_data_append, string_data_append, string_data_append, string_data_append,
    List.append_assoc]

/-- C5: for every file in the union of the fixed entry file name `index.kt`
and the transpiler's `chunks` list that is not already in the change set
from the changed-list step and for which no cached dex artifact exists,
the resolver includes that file in the change set even though the
transpiler did not report it as changed. -/
theorem chunk_without_dex_in_change_set
    (result : RunKotlinDevResult) (srcOut dexOut outDir : String) (fs : Fs)
    (c : String) (hc : c ∈ "index.kt" :: result.chunks.getD [])
    (_hnotin : resolvePath srcOut c ∉ (processChanged srcOut dexOut result.changed fs).1)
    (hdex : existsF (parseKotlinChangedFiles result srcOut dexOut outDir fs).2
        (resolveDexByKotlinFile dexOut c) = false) :
    resolvePath srcOut c ∈ (parseKotlinChangedFiles result srcOut dexOut outDir fs).1 := by
  simp only [parseKotlinChangedFiles] at hdex ⊢
  exact processChunks_chunk_covered _ _ _ _ _ _ _ hc hdex

/-- Witness for C5 at a concrete input: chunk `a.kt` has no cached dex
artifact and lands in the change set. -/
theorem chunk_without_dex_in_change_set_witness :
    resolvePath "/c/src" "a.kt" ∈
      (parseKotlinChangedFiles
        { filename := "index.kt", changed := [], chunks := some ["a.kt"] }
        "/c/src" "/c/dex" "/out" []).1 :=
  chunk_without_dex_in_change_set _ _ _ _ _ "a.kt" (by decide) (by decide) (by decide)

/-- C6: every file of the transpiler's changed list is unconditionally
added to the change set, resolved to an absolute path in the Kotlin source
output directory, and after the changed-list phase (before recompilation
is attempted) its cached dex artifact no longer exists. -/
theorem changed_file_compiled_and_dex_removed
    (result : RunKotlinDevResult) (srcOut dexOut outDir : String) (fs : Fs)
    (f : String) (hf : f ∈ result.changed) :
    resolvePath srcOut f ∈ (parseKotlinChangedFiles result srcOut dexOut outDir fs).1 ∧
    existsF (processChanged srcOut dexOut result.changed fs).2
      (resolveDexByKotlinFile dexOut f) = false := by
  constructor
  · simp only [parseKotlinChangedFiles]
    apply processChunks_acc_mem
    rw [processChanged_fst]
    exact List.mem_map_of_mem _ hf
  · exact processChanged_dex_removed _ _ _ _ _ hf

/-- Witness for C6 at a concrete input: `b.kt` has a cached dex artifact;
it is deleted and `b.kt` joins the change set. -/
theorem changed_file_compiled_and_dex_removed_witness :
    resolvePath "/c/src" "b.kt" ∈
      (parseKotlinChangedFiles
        { filename := "index.kt", changed := ["b.kt"], chunks := none }
        "/c/src" "/c/dex" "/out" [("/c/dex/b/classes.dex", "D")]).1 ∧
    existsF (processChanged "/c/src" "/c/dex" ["b.kt"] [("/c/dex/b/classes.dex", "D")]).2
      (resolveDexByKotlinFile "/c/dex" "b.kt") = false :=
  changed_file_compiled_and_dex_removed
    { filename := "index.kt", changed := ["b.kt"], chunks := none }
    "/c/src" "/c/dex" "/out" [("/c/dex/b/classes.dex", "D")] "b.kt" (by decide)

/-- C10: the manifest read returns absent exactly when the manifest file
does not exist; a present file whose content does not parse makes the
read throw the parse error instead of returning absent. -/
theorem read_manifest_absent_iff (fs : Fs) (srcOut : String) :
    (readKotlinManifestJson fs srcOut = Except.ok none ↔
      lookupFile fs (manifestPath srcOut) = none) ∧
    (∀ content, lookupFile fs (manifestPath srcOut) = some content →
      parseManifestJson content = none →
      readKotlinManifestJson fs srcOut = Except.error "SyntaxError: JSON.parse") := by
  constructor
  · cases hl : lookupFile fs (manifestPath srcOut) with
    | none =>
      unfold readKotlinManifestJson
      rw [hl]
      simp
    | some content =>
      unfold readKotlinManifestJson
      rw [hl]
      cases hp : parseManifestJson content with
      | none => simp [hp]
      | some m => simp [hp]
  · intro content hc hp
    unfold readKotlinManifestJson
    rw [hc]
    simp [hp]

/-- Witness for C10 at a concrete input: a manifest file holding `nope`
makes the read throw. -/
theorem read_manifest_absent_iff_witness :
    readKotlinManifestJson [(resolvePath "/c/src" ".manifest.json", "nope")] "/c/src" =
      Except.error "SyntaxError: JSON.parse" :=
  (read_manifest_absent_iff [(resolvePath "/c/src" ".manifest.json", "nope")] "/c/src").2
    "nope" (by decide) (by decide)

/-- C2 counterexample: for a relative path with a directory component that
itself contains `".kt"`, the code removes the first occurrence of `".kt"`
from the resolved path instead of stripping the relative path's `.kt`
suffix, so the derived dex path differs from the spec's derivation. -/
theorem dex_path_not_suffix_strip :
    resolveDexByKotlinFile "/c/dex" "sub.kt/main.kt" = "/c/dex/sub/main.kt/classes.dex" ∧
    resolveDexByKotlinFileSpec "/c/dex" "sub.kt/main.kt" = "/c/dex/sub.kt/main/classes.dex" ∧
    resolveDexByKotlinFile "/c/dex" "sub.kt/main.kt" ≠
      resolveDexByKotlinFileSpec "/c/dex" "sub.kt/main.kt" := by
  decide

/-- C2 amended: the dex path is obtained by removing the first occurrence
of `".kt"` from the resolved path and appending `classes.dex`; whenever
`".kt"` occurs nowhere in the resolved path except as the relative path's
final extension, this agrees with the spec's suffix-stripping derivation.
(This is a sufficient condition only: the two derivations can also agree
coincidentally, e.g. for the relative path `".kt.kt"`.) -/
theorem dex_path_agrees_when_kt_only_suffix (base r : String)
    (h : containsSub ['.', 'k', 't'] (resolvePath base r).data = false) :
    resolveDexByKotlinFile base (r ++ ".kt") =
      resolveDexByKotlinFileSpec base (r ++ ".kt") := by
  unfold resolveDexByKotlinFile resolveDexByKotlinFileSpec
  rw [stripSuffixKt_append]
  have hres : resolvePath base (r ++ ".kt") = resolvePath base r ++ ".kt" :=
    (string_append_assoc (base ++ "/") r ".kt").symm
  rw [hres, replaceFirstStr_strip _ h]

/-- Witness for the amended C2 at a concrete input. -/
theorem dex_path_agrees_when_kt_only_suffix_witness :
    resolveDexByKotlinFile "/c/dex" ("pages/index" ++ ".kt") =
      resolveDexByKotlinFileSpec "/c/dex" ("pages/index" ++ ".kt") :=
  dex_path_agrees_when_kt_only_suffix "/c/dex" "pages/index" (by decide)

/-- C3 counterexample: a transpiler result whose changed list repeats a
file yields a change set with duplicate entries, refuting that duplicates
are impossible for every transpiler result. -/
theorem change_set_duplicates :
    ¬ (parseKotlinChangedFiles
        { filename := "index.kt", changed := ["a.kt", "a.kt"], chunks := none }
        "/c/src" "/c/dex" "/out" []).1.Nodup := by
  decide

/-- C3 amended: the change set is duplicate-free whenever the transpiler's
changed entries resolve to pairwise-distinct absolute paths (the
hypothesis is on the resolved paths themselves, so it is insensitive to
how `path.resolve` normalizes distinct spellings); a changed list whose
entries resolve to the same absolute path twice propagates the duplicate
into the change set. -/
theorem change_set_nodup_of_resolved_nodup
    (result : RunKotlinDevResult) (srcOut dexOut outDir : String) (fs : Fs)
    (hnd : (result.changed.map (resolvePath srcOut)).Nodup) :
    (parseKotlinChangedFiles result srcOut dexOut outDir fs).1.Nodup := by
  simp only [parseKotlinChangedFiles]
  apply processChunks_nodup
  rw [processChanged_fst]
  exact hnd

/-- Witness for the amended C3 at a concrete input. -/
theorem change_set_nodup_of_resolved_nodup_witness :
    (parseKotlinChangedFiles
      { filename := "index.kt", changed := ["a.kt", "b.kt"], chunks := none }
      "/c/src" "/c/dex" "/out" []).1.Nodup :=
  change_set_nodup_of_resolved_nodup
    { filename := "index.kt", changed := ["a.kt", "b.kt"], chunks := none }
    "/c/src" "/c/dex" "/out" [] (by decide)

instance {ε α : Type} [DecidableEq ε] [DecidableEq α] : DecidableEq (Except ε α) :=
  fun a b =>
    match a, b with
    | Except.ok x, Except.ok y =>
      if h : x = y then isTrue (by rw [h]) else isFalse (fun hh => h (Except.ok.inj hh))
    | Except.error x, Except.error y =>
      if h : x = y then isTrue (by rw [h]) else isFalse (fun hh => h (Except.error.inj hh))
    | Except.ok _, Except.error _ => isFalse (fun hh => Except.noConfusion hh)
    | Except.error _, Except.ok _ => isFalse (fun hh => Except.noConfusion hh)

lemma runKotlinDev_attempted_kotlinc (opts : CompileAppOptions) (cacheDirEnv : Option String)
    (driver : Fs → DriverResult × Fs) (result : RunKotlinDevResult) (fs : Fs) (st : DevState)
    (hcond : (!(devParse cacheDirEnv opts.outputDir result fs).1.isEmpty &&
        existsF (devParse cacheDirEnv opts.outputDir result fs).2
          (resolvePath (srcOutOf cacheDirEnv opts.outputDir) result.filename)) = true)
    (hrun : runKotlinDev opts cacheDirEnv true driver result fs = Except.ok st) :
    st.result.kotlinc = true := by
  by_cases hcode : (driver (devParse cacheDirEnv opts.outputDir result fs).2).1.code = 0
  · cases hdata : (driver (devParse cacheDirEnv opts.outputDir result fs).2).1.data with
    | some d =>
      rw [runKotlinDev_compile_success opts cacheDirEnv driver result fs d hcond hcode hdata]
        at hrun
      have hst := Except.ok.inj hrun
      rw [← hst]
    | none =>
      rw [runKotlinDev_compile_fail opts cacheDirEnv driver result fs hcond (Or.inr hdata)]
        at hrun
      exact (runKotlinDevFail_ok _ _ _ _ _ hrun).2.2.1
  · rw [runKotlinDev_compile_fail opts cacheDirEnv driver result fs hcond (Or.inl hcode)]
      at hrun
    exact (runKotlinDevFail_ok _ _ _ _ _ hrun).2.2.1

lemma runKotlinDev_skipped_state (opts : CompileAppOptions) (cacheDirEnv : Option String)
    (hasServer : Bool) (driver : Fs → DriverResult × Fs) (result : RunKotlinDevResult)
    (fs : Fs) (st : DevState)
    (hcond : (!(devParse cacheDirEnv opts.outputDir result fs).1.isEmpty &&
        existsF (devParse cacheDirEnv opts.outputDir result fs).2
          (resolvePath (srcOutOf cacheDirEnv opts.outputDir) result.filename)) = false)
    (hrun : runKotlinDev opts cacheDirEnv hasServer driver result fs = Except.ok st) :
    st.result = { result with type := some "kotlin" } ∧
      st.fs = (devParse cacheDirEnv opts.outputDir result fs).2 ∧ st.logs = [] := by
  rw [runKotlinDev_skip opts cacheDirEnv hasServer driver result fs hcond] at hrun
  have hst := Except.ok.inj hrun
  rw [← hst]
  exact ⟨rfl, rfl, rfl⟩

/-- C4 amended: the development cycle skips bytecode compilation (the
`kotlinc` flag stays false) exactly when the resolved change set is empty
OR the entry Kotlin file does not exist after resolution; compilation is
attempted only when the change set is nonempty AND the entry file
exists. -/
theorem kotlinc_flag_iff
    (opts : CompileAppOptions) (cacheDirEnv : Option String)
    (driver : Fs → DriverResult × Fs) (result : RunKotlinDevResult)
    (fs : Fs) (st : DevState)
    (hk : result.kotlinc = false)
    (hrun : runKotlinDev opts cacheDirEnv true driver result fs = Except.ok st) :
    st.result.kotlinc = false ↔
      ((devParse cacheDirEnv opts.outputDir result fs).1 = [] ∨
        existsF (devParse cacheDirEnv opts.outputDir result fs).2
          (resolvePath (srcOutOf cacheDirEnv opts.outputDir) result.filename) = false) := by
  cases hcond : (!(devParse cacheDirEnv opts.outputDir result fs).1.isEmpty &&
      existsF (devParse cacheDirEnv opts.outputDir result fs).2
        (resolvePath (srcOutOf cacheDirEnv opts.outputDir) result.filename)) with
  | true =>
    have hkc := runKotlinDev_attempted_kotlinc opts cacheDirEnv driver result fs st hcond hrun
    have hcond2 := hcond
    simp only [Bool.and_eq_true, Bool.not_eq_true'] at hcond2
    obtain ⟨h1, h2⟩ := hcond2
    have hne : ¬((devParse cacheDirEnv opts.outputDir result fs).1 = [] ∨
        existsF (devParse cacheDirEnv opts.outputDir result fs).2
          (resolvePath (srcOutOf cacheDirEnv opts.outputDir) result.filename) = false) := by
      rintro (h | h)
      · rw [h] at h1; simp at h1
      · rw [h2] at h; cases h
    rw [hkc]
    simp only [Bool.true_eq_false, false_iff]
    exact hne
  | false =>
    obtain ⟨hres, _, _⟩ :=
      runKotlinDev_skipped_state opts cacheDirEnv true driver result fs st hcond hrun
    have hor : (devParse cacheDirEnv opts.outputDir result fs).1 = [] ∨
        existsF (devParse cacheDirEnv opts.outputDir result fs).2
          (resolvePath (srcOutOf cacheDirEnv opts.outputDir) result.filename) = false := by
      by_cases hemp : (devParse cacheDirEnv opts.outputDir result fs).1.isEmpty = true
      · exact Or.inl (listIsEmpty_eq_nil hemp)
      · right
        have hemp2 : (devParse cacheDirEnv opts.outputDir result fs).1.isEmpty = false := by
          revert hemp
          cases (devParse cacheDirEnv opts.outputDir result fs).1.isEmpty <;> simp
        rw [hemp2] at hcond
        simpa using hcond
    constructor
    · intro _; exact hor
    · intro _
      rw [hres]
      simpa using hk

/-- Transpiler result for the C4 counterexample and witness. -/
def resC4 : RunKotlinDevResult :=
  { filename := "index.kt", changed := [], chunks := none }

/-- Filesystem for the C4 counterexample and witness: the entry Kotlin
file exists, and a cached dex artifact for `index.kt` exists. -/
def fsC4 : Fs :=
  [(resolvePath "/c/src" "index.kt", "M"), ("/c/dex/index/classes.dex", "D")]

/-- A driver that always succeeds producing one artifact, with no
filesystem side effect. -/
def driverOk : Fs → DriverResult × Fs :=
  fun g => ({ code := 0, msg := none, data := some { dexList := ["x/classes.dex"] } }, g)

/-- A driver that always fails with diagnostic `E`, with no filesystem
side effect. -/
def driverFail : Fs → DriverResult × Fs :=
  fun g => ({ code := 1, msg := some "E", data := none }, g)

/-- C4 counterexample: the change set is empty while the entry Kotlin file
exists on disk; the claim says the cycle proceeds to compile in this case,
but the code skips — the `kotlinc` flag stays false. -/
theorem skip_with_existing_entry :
    (devParse (some "/c") "/out" resC4 fsC4).1 = [] ∧
    existsF (devParse (some "/c") "/out" resC4 fsC4).2
      (resolvePath (srcOutOf (some "/c") "/out") resC4.filename) = true ∧
    Option.map RunKotlinDevResult.kotlinc
      (okResult (runKotlinDev { inputDir := "/in", outputDir := "/out" } (some "/c") true
        driverOk resC4 fsC4)) = some false := by
  decide

/-- Final state of the C4 witness cycle. -/
def stC4 : DevState :=
  { result := { resC4 with type := some "kotlin" }
    fs := [("/out/index/classes.dex", "D"), (resolvePath "/c/src" "index.kt", "M"),
           ("/c/dex/index/classes.dex", "D")]
    logs := [] }

/-- Witness for the amended C4 at a concrete input. -/
theorem kotlinc_flag_iff_witness :
    stC4.result.kotlinc = false ↔
      ((devParse (some "/c") "/out" resC4 fsC4).1 = [] ∨
        existsF (devParse (some "/c") "/out" resC4 fsC4).2
          (resolvePath (srcOutOf (some "/c") "/out") resC4.filename) = false) :=
  kotlinc_flag_iff { inputDir := "/in", outputDir := "/out" } (some "/c") driverOk resC4 fsC4
    stC4 (by decide) (by decide)

/-- C7: within a cycle that invokes the compiler driver, the driver result
is treated as failure exactly when its status code is nonzero or its data
payload is absent — then the message (if present) is logged and the
completed cycle reports an empty changed list; a zero code with data
present is treated as success instead, replacing the changed list. -/
theorem driver_failure_semantics
    (opts : CompileAppOptions) (cacheDirEnv : Option String)
    (driver : Fs → DriverResult × Fs) (result : RunKotlinDevResult)
    (fs : Fs) (st : DevState)
    (hk : result.kotlinc = false)
    (hrun : runKotlinDev opts cacheDirEnv true driver result fs = Except.ok st)
    (hatt : st.result.kotlinc = true) :
    (((driver (devParse cacheDirEnv opts.outputDir result fs).2).1.code ≠ 0 ∨
      (driver (devParse cacheDirEnv opts.outputDir result fs).2).1.data = none) →
      st.result.changed = [] ∧
      st.logs = logOf (driver (devParse cacheDirEnv opts.outputDir result fs).2).1.msg) ∧
    (∀ d, (driver (devParse cacheDirEnv opts.outputDir result fs).2).1.code = 0 →
      (driver (devParse cacheDirEnv opts.outputDir result fs).2).1.data = some d →
      st.result.changed = d.dexList ∧ st.logs = []) := by
  cases hcond : (!(devParse cacheDirEnv opts.outputDir result fs).1.isEmpty &&
      existsF (devParse cacheDirEnv opts.outputDir result fs).2
        (resolvePath (srcOutOf cacheDirEnv opts.outputDir) result.filename)) with
  | false =>
    exfalso
    obtain ⟨hres, _, _⟩ :=
      runKotlinDev_skipped_state opts cacheDirEnv true driver result fs st hcond hrun
    rw [hres] at hatt
    simp [hk] at hatt
  | true =>
    by_cases hcode : (driver (devParse cacheDirEnv opts.outputDir result fs).2).1.code = 0
    · cases hdata : (driver (devParse cacheDirEnv opts.outputDir result fs).2).1.data with
      | some d =>
        rw [runKotlinDev_compile_success opts cacheDirEnv driver result fs d hcond hcode hdata]
          at hrun
        have hst := Except.ok.inj hrun
        constructor
        · intro hf
          exfalso
          rcases hf with hf | hf
          · exact hf hcode
          · cases hf
        · intro e hcode2 hdata2
          have hde : d = e := Option.some.inj hdata2
          subst hde
          rw [← hst]
          exact ⟨rfl, rfl⟩
      | none =>
        rw [runKotlinDev_compile_fail opts cacheDirEnv driver result fs hcond (Or.inr hdata)]
          at hrun
        have hfo := runKotlinDevFail_ok _ _ _ _ _ hrun
        constructor
        · intro _
          exact ⟨hfo.1, hfo.2.1⟩
        · intro e hcode2 hdata2
          cases hdata2
    · rw [runKotlinDev_compile_fail opts cacheDirEnv driver result fs hcond (Or.inl hcode)]
        at hrun
      have hfo := runKotlinDevFail_ok _ _ _ _ _ hrun
      constructor
      · intro _
        exact ⟨hfo.1, hfo.2.1⟩
      · intro e hcode2 hdata2
        exact absurd hcode2 hcode

/-- Transpiler result for the C7 witness. -/
def resC7 : RunKotlinDevResult :=
  { filename := "index.kt", changed := [], chunks := some ["a.kt"] }

/-- Filesystem for the C7 witness: only the entry Kotlin source exists. -/
def fsC7 : Fs := [(resolvePath "/c/src" "index.kt", "M")]

/-- Final state of the C7 witness cycle. -/
def stC7 : DevState :=
  { result := { resC7 with type := some "kotlin", kotlinc := true }
    fs := fsC7
    logs := ["E"] }

/-- Witness for C7 at a concrete input: a failing driver leaves an empty
changed list and its message in the log. -/
theorem driver_failure_semantics_witness :
    stC7.result.changed = [] ∧
    stC7.logs = logOf (driverFail (devParse (some "/c") "/out" resC7 fsC7).2).1.msg :=
  (driver_failure_semantics { inputDir := "/in", outputDir := "/out" } (some "/c") driverFail
    resC7 fsC7 stC7 (by decide) (by decide) (by decide)).1 (by decide)

/-- C8: after a development cycle in which the compiler driver succeeds
(zero status code with data present), the result's changed list equals
the driver's produced dex list and — given that the driver wrote each
produced artifact into the dex cache — every artifact path exists both in
the dex cache directory and in the active output directory. -/
theorem driver_success_mirrors
    (opts : CompileAppOptions) (cacheDirEnv : Option String)
    (driver : Fs → DriverResult × Fs) (result : RunKotlinDevResult)
    (fs : Fs) (st : DevState) (d : DriverData)
    (hk : result.kotlinc = false)
    (hrun : runKotlinDev opts cacheDirEnv true driver result fs = Except.ok st)
    (hatt : st.result.kotlinc = true)
    (hcode : (driver (devParse cacheDirEnv opts.outputDir result fs).2).1.code = 0)
    (hdata : (driver (devParse cacheDirEnv opts.outputDir result fs).2).1.data = some d)
    (hsrc : ∀ x ∈ d.dexList,
      existsF (driver (devParse cacheDirEnv opts.outputDir result fs).2).2
        (resolvePath (dexOutOf cacheDirEnv opts.outputDir) x) = true) :
    st.result.changed = d.dexList ∧
    ∀ x ∈ d.dexList,
      existsF st.fs (resolvePath (dexOutOf cacheDirEnv opts.outputDir) x) = true ∧
      existsF st.fs (resolvePath opts.outputDir x) = true := by
  cases hcond : (!(devParse cacheDirEnv opts.outputDir result fs).1.isEmpty &&
      existsF (devParse cacheDirEnv opts.outputDir result fs).2
        (resolvePath (srcOutOf cacheDirEnv opts.outputDir) result.filename)) with
  | false =>
    exfalso
    obtain ⟨hres, _, _⟩ :=
      runKotlinDev_skipped_state opts cacheDirEnv true driver result fs st hcond hrun
    rw [hres] at hatt
    simp [hk] at hatt
  | true =>
    rw [runKotlinDev_compile_success opts cacheDirEnv driver result fs d hcond hcode hdata]
      at hrun
    have hst := Except.ok.inj hrun
    rw [← hst]
    constructor
    · rfl
    · intro x hx
      exact syncDexList_covers d.dexList (dexOutOf cacheDirEnv opts.outputDir) opts.outputDir
        _ hsrc x hx

/-- Transpiler result for the C8 witness. -/
def resC8 : RunKotlinDevResult :=
  { filename := "index.kt", changed := ["b.kt"], chunks := none }

/-- Filesystem for the C8 witness: the entry source exists and the driver's
produced artifact is in the dex cache. -/
def fsC8 : Fs :=
  [(resolvePath "/c/src" "index.kt", "M"), ("/c/dex/x/classes.dex", "D")]

/-- Final state of the C8 witness cycle. -/
def stC8 : DevState :=
  { result := { resC8 with type := some "kotlin", kotlinc := true, changed := ["x/classes.dex"] }
    fs := [("/out/x/classes.dex", "D"), (resolvePath "/c/src" "index.kt", "M"),
           ("/c/dex/x/classes.dex", "D")]
    logs := [] }

/-- Witness for C8 at a concrete input: the produced artifact ends up in
both the dex cache and the output directory. -/
theorem driver_success_mirrors_witness :
    stC8.result.changed = ["x/classes.dex"] ∧
    existsF stC8.fs (resolvePath (dexOutOf (some "/c") "/out") "x/classes.dex") = true ∧
    existsF stC8.fs (resolvePath "/out" "x/classes.dex") = true :=
  have h := driver_success_mirrors { inputDir := "/in", outputDir := "/out" } (some "/c")
    driverOk resC8 fsC8 stC8 { dexList := ["x/classes.dex"] }
    (by decide) (by decide) (by decide) (by decide) (by decide) (by decide)
  ⟨h.1, (h.2 "x/classes.dex" (by decide)).1, (h.2 "x/classes.dex" (by decide)).2⟩

/-- C9: a development cycle whose compiler driver always fails leaves
every file that was present under the active output directory before the
cycle intact (same content): the stale-dex deletions of the changed files
and the manifest file lie outside the output directory (hypotheses
matching the cache layout), cached-artifact promotion copies only to
output paths that do not already exist, and the failure branch writes
only the manifest file. -/
theorem failure_preserves_output_files
    (opts : CompileAppOptions) (cacheDirEnv : Option String)
    (driver : Fs → DriverResult × Fs) (result : RunKotlinDevResult)
    (fs : Fs) (st : DevState) (p c : String)
    (hrun : runKotlinDev opts cacheDirEnv true driver result fs = Except.ok st)
    (hfaildrv : ∀ g, ¬((driver g).1.code = 0 ∧ (driver g).1.data ≠ none))
    (hp : underDir opts.outputDir p = true)
    (hc : lookupFile fs p = some c)
    (hdrvframe : ∀ g q e, underDir opts.outputDir q = true → lookupFile g q = some e →
      lookupFile (driver g).2 q = some e)
    (hunlink : ∀ f ∈ result.changed,
      underDir opts.outputDir
        (resolveDexByKotlinFile (dexOutOf cacheDirEnv opts.outputDir) f) = false)
    (hman : underDir opts.outputDir
      (manifestPath (srcOutOf cacheDirEnv opts.outputDir)) = false) :
    lookupFile st.fs p = some c := by
  have hne : ∀ f ∈ result.changed,
      resolveDexByKotlinFile (dexOutOf cacheDirEnv opts.outputDir) f ≠ p := by
    intro f hf heq
    have h2 := hunlink f hf
    rw [heq, hp] at h2
    cases h2
  have hparse : lookupFile (devParse cacheDirEnv opts.outputDir result fs).2 p = some c := by
    simp only [devParse, parseKotlinChangedFiles]
    apply processChunks_preserve
    exact processChanged_preserve _ _ _ _ _ _ hne hc
  cases hcond : (!(devParse cacheDirEnv opts.outputDir result fs).1.isEmpty &&
      existsF (devParse cacheDirEnv opts.outputDir result fs).2
        (resolvePath (srcOutOf cacheDirEnv opts.outputDir) result.filename)) with
  | false =>
    obtain ⟨_, hfs, _⟩ :=
      runKotlinDev_skipped_state opts cacheDirEnv true driver result fs st hcond hrun
    rw [hfs]
    exact hparse
  | true =>
    have hfail : (driver (devParse cacheDirEnv opts.outputDir result fs).2).1.code ≠ 0 ∨
        (driver (devParse cacheDirEnv opts.outputDir result fs).2).1.data = none := by
      by_cases hcode : (driver (devParse cacheDirEnv opts.outputDir result fs).2).1.code = 0
      · right
        by_contra hd
        exact hfaildrv (devParse cacheDirEnv opts.outputDir result fs).2 ⟨hcode, hd⟩
      · left; exact hcode
    rw [runKotlinDev_compile_fail opts cacheDirEnv driver result fs hcond hfail] at hrun
    have hdrv : lookupFile (driver (devParse cacheDirEnv opts.outputDir result fs).2).2 p
        = some c := hdrvframe _ _ _ hp hparse
    have hfo := runKotlinDevFail_ok _ _ _ _ _ hrun
    rcases hfo.2.2.2.2.2 with hfs | ⟨m, hfs⟩
    · rw [hfs]
      exact hdrv
    · rw [hfs]
      unfold writeKotlinManifestJson
      have hmp : manifestPath (srcOutOf cacheDirEnv opts.outputDir) ≠ p := by
        intro heq
        rw [heq, hp] at hman
        cases hman
      rw [lookupFile_writeFile_ne _ _ _ _ hmp]
      exact hdrv

/-- Transpiler result for the C9 witness. -/
def resC9 : RunKotlinDevResult :=
  { filename := "index.kt", changed := ["b.kt"], chunks := none }

/-- Filesystem for the C9 witness: a previously deployed artifact in the
output directory, the entry source, and a manifest entry for `b.kt`. -/
def fsC9 : Fs :=
  [("/out/keep/classes.dex", "K"), (resolvePath "/c/src" "index.kt", "M"),
   (manifestPath (srcOutOf (some "/c") "/out"), stringifyManifest [("b.kt", "h")])]

/-- Final state of the C9 witness cycle. -/
def stC9 : DevState :=
  { result := { resC9 with type := some "kotlin", kotlinc := true, changed := [] }
    fs := [(manifestPath (srcOutOf (some "/c") "/out"), stringifyManifest []),
           ("/out/keep/classes.dex", "K"), (resolvePath "/c/src" "index.kt", "M")]
    logs := ["E"] }

/-- Witness for C9 at a concrete input: the deployed artifact survives a
failing cycle with its content. -/
theorem failure_preserves_output_files_witness :
    lookupFile stC9.fs "/out/keep/classes.dex" = some "K" :=
  failure_preserves_output_files { inputDir := "/in", outputDir := "/out" } (some "/c")
    driverFail resC9 fsC9 stC9 "/out/keep/classes.dex" "K"
    (by decide)
    (fun g h => absurd h.1 (show ¬(1 : Int) = 0 by decide))
    (by decide) (by decide)
    (fun g q e _ h2 => h2)
    (by decide) (by decide)

/-- Transpiler result for the C1 counterexample: nothing in the changed
list, one chunk `a.kt`. -/
def resC1 : RunKotlinDevResult :=
  { filename := "index.kt", changed := [], chunks := some ["a.kt"] }

/-- Filesystem for the C1 counterexample: the entry source exists and the
manifest has an entry for `a.kt`. -/
def fsC1 : Fs :=
  [(resolvePath "/c/src" "index.kt", "M"),
   (manifestPath (srcOutOf (some "/c") "/out"), stringifyManifest [("a.kt", "h")])]

/-- C1 counterexample: the driver fails, `a.kt` is in the attempted change
set (it entered through `chunks`, not through the transpiler's changed
list), the cycle completes with the filesystem unchanged — so the
persisted manifest still contains the `a.kt` entry, refuting that every
attempted file's key is removed. -/
theorem rollback_misses_chunk_entry :
    resolvePath "/c/src" "a.kt" ∈ (devParse (some "/c") "/out" resC1 fsC1).1 ∧
    okFs (runKotlinDev { inputDir := "/in", outputDir := "/out" } (some "/c") true driverFail
      resC1 fsC1) = some fsC1 ∧
    lookupFile fsC1 (manifestPath (srcOutOf (some "/c") "/out")) =
      some (stringifyManifest [("a.kt", "h")]) ∧
    parseManifestJson (stringifyManifest [("a.kt", "h")]) = some [("a.kt", "h")] := by
  decide

/-- C1 amended: when the compiler driver fails after a compile attempt
with a nonempty transpiler changed list and a readable manifest, the
persisted manifest is the serialization of the previous mapping with
exactly the changed-list keys removed — entries of files that entered the
change set only through `chunks` are kept — and the reported changed list
is cleared.  (When the changed list is empty or the manifest file is
unreadable or absent, nothing is rolled back.) -/
theorem failure_rollback_of_changed_keys
    (opts : CompileAppOptions) (cacheDirEnv : Option String)
    (driver : Fs → DriverResult × Fs) (result : RunKotlinDevResult)
    (fs : Fs) (st : DevState) (m : List (String × String)) (content : String)
    (hk : result.kotlinc = false)
    (hrun : runKotlinDev opts cacheDirEnv true driver result fs = Except.ok st)
    (hatt : st.result.kotlinc = true)
    (hfail : (driver (devParse cacheDirEnv opts.outputDir result fs).2).1.code ≠ 0 ∨
      (driver (devParse cacheDirEnv opts.outputDir result fs).2).1.data = none)
    (hch : result.changed ≠ [])
    (hcontent : lookupFile (driver (devParse cacheDirEnv opts.outputDir result fs).2).2
      (manifestPath (srcOutOf cacheDirEnv opts.outputDir)) = some content)
    (hparse : parseManifestJson content = some m) :
    lookupFile st.fs (manifestPath (srcOutOf cacheDirEnv opts.outputDir)) =
      some (stringifyManifest (removeKeys m result.changed)) ∧
    (∀ f ∈ result.changed, lookupFile (removeKeys m result.changed) f = none) ∧
    (∀ k, k ∉ result.changed →
      lookupFile (removeKeys m result.changed) k = lookupFile m k) ∧
    st.result.changed = [] := by
  cases hcond : (!(devParse cacheDirEnv opts.outputDir result fs).1.isEmpty &&
      existsF (devParse cacheDirEnv opts.outputDir result fs).2
        (resolvePath (srcOutOf cacheDirEnv opts.outputDir) result.filename)) with
  | false =>
    exfalso
    obtain ⟨hres, _, _⟩ :=
      runKotlinDev_skipped_state opts cacheDirEnv true driver result fs st hcond hrun
    rw [hres] at hatt
    simp [hk] at hatt
  | true =>
    rw [runKotlinDev_compile_fail opts cacheDirEnv driver result fs hcond hfail] at hrun
    unfold runKotlinDevFail at hrun
    have hemp : ({ result with type := some "kotlin", kotlinc := true } :
        RunKotlinDevResult).changed.isEmpty = false := by
      cases hcl : result.changed with
      | nil => exact absurd hcl hch
      | cons a l => simp [hcl]
    rw [if_neg (by rw [hemp]; exact Bool.false_ne_true)] at hrun
    have hread : readKotlinManifestJson
        (driver (devParse cacheDirEnv opts.outputDir result fs).2).2
        (srcOutOf cacheDirEnv opts.outputDir) = Except.ok (some m) := by
      unfold readKotlinManifestJson
      rw [hcontent]
      simp [hparse]
    rw [hread] at hrun
    have hst := Except.ok.inj hrun
    rw [← hst]
    refine ⟨?_, ?_, ?_, rfl⟩
    · unfold writeKotlinManifestJson
      exact lookupFile_writeFile_self _ _ _
    · intro f hf
      exact removeKeys_lookup_mem m _ f hf
    · intro k hk2
      exact removeKeys_lookup_not_mem m _ k hk2

/-- Transpiler result for the C1 witness. -/
def resC1w : RunKotlinDevResult :=
  { filename := "index.kt", changed := ["b.kt"], chunks := none }

/-- Filesystem for the C1 witness: entry source plus a manifest holding
entries for `b.kt` and `z.kt`. -/
def fsC1w : Fs :=
  [(resolvePath "/c/src" "index.kt", "M"),
   (manifestPath (srcOutOf (some "/c") "/out"),
    stringifyManifest [("b.kt", "h"), ("z.kt", "w")])]

/-- Final state of the C1 witness cycle. -/
def stC1w : DevState :=
  { result := { resC1w with type := some "kotlin", kotlinc := true, changed := [] }
    fs := [(manifestPath (srcOutOf (some "/c") "/out"), stringifyManifest [("z.kt", "w")]),
           (resolvePath "/c/src" "index.kt", "M")]
    logs := ["E"] }

/-- Witness for the amended C1 at a concrete input: `b.kt` is rolled back,
`z.kt` survives, and the changed list is cleared. -/
theorem failure_rollback_of_changed_keys_witness :
    lookupFile stC1w.fs (manifestPath (srcOutOf (some "/c") "/out")) =
      some (stringifyManifest (removeKeys [("b.kt", "h"), ("z.kt", "w")] ["b.kt"])) ∧
    lookupFile (removeKeys [("b.kt", "h"), ("z.kt", "w")] ["b.kt"]) "b.kt" = none ∧
    lookupFile (removeKeys [("b.kt", "h"), ("z.kt", "w")] ["b.kt"]) "z.kt" =
      lookupFile [("b.kt", "h"), ("z.kt", "w")] "z.kt" ∧
    stC1w.result.changed = [] :=
  have h := failure_rollback_of_changed_keys { inputDir := "/in", outputDir := "/out" }
    (some "/c") driverFail resC1w fsC1w stC1w [("b.kt", "h"), ("z.kt", "w")]
    (stringifyManifest [("b.kt", "h"), ("z.kt", "w")])
    (by decide) (by decide) (by decide) (by decide) (by decide) (by decide) (by decide)
  ⟨h.1, h.2.1 "b.kt" (by decide), h.2.2.1 "z.kt" (by decide), h.2.2.2⟩

end UniAppX
